import Mathlib

/-!
Verification of the sleep-data pipeline (`src/sleep/cli.py`, `src/sleep/fitbit.py`).

Modelling conventions:
* JSON timestamp strings are Lean `String`s; Python's lexicographic string
  comparison is modelled by `strLt`/`strLe` below (code-point lexicographic,
  a proper prefix sorts first), which kernel-evaluate.
* Python numbers produced by true division (`/`) are modelled as `ℚ`;
  integer-valued JSON fields as `ℕ`.
* A JSON object field that may be absent is an `Option`.
-/

/-- Lexicographic (code-point) order on character lists, as Python compares
strings: a proper prefix is smaller. -/
def strLtAux : List Char → List Char → Bool
  | [], [] => false
  | [], _ :: _ => true
  | _ :: _, [] => false
  | a :: as, b :: bs => if a < b then true else if b < a then false else strLtAux as bs

/-- Python `a < b` on strings. -/
def strLt (a b : String) : Bool := strLtAux a.toList b.toList

/-- Python `a <= b` on strings (total order, so `a <= b ↔ ¬ b < a`). -/
def strLe (a b : String) : Bool := ! strLt b a

/-- Minimum of two strings under the lexicographic order. -/
def strMin (a b : String) : String := if strLt a b then a else b

theorem strLtAux_asymm : ∀ {as bs : List Char}, strLtAux as bs = true → strLtAux bs as = false
  | [], [], h => by simp [strLtAux] at h
  | [], _ :: _, _ => by simp [strLtAux]
  | _ :: _, [], h => by simp [strLtAux] at h
  | a :: as, b :: bs, h => by
      simp only [strLtAux] at h ⊢
      rcases lt_trichotomy a b with hab | hab | hab
      · simp [hab, not_lt_of_gt hab]
      · subst hab
        simp only [lt_irrefl, if_false] at h ⊢
        exact strLtAux_asymm h
      · simp [hab, not_lt_of_gt hab] at h

theorem strLtAux_eq_of_not_lt : ∀ {as bs : List Char},
    strLtAux as bs = false → strLtAux bs as = false → as = bs
  | [], [], _, _ => rfl
  | [], _ :: _, h, _ => by simp [strLtAux] at h
  | _ :: _, [], _, h => by simp [strLtAux] at h
  | a :: as, b :: bs, h₁, h₂ => by
      simp only [strLtAux] at h₁ h₂
      rcases lt_trichotomy a b with hab | hab | hab
      · simp [hab] at h₁
      · subst hab
        simp only [lt_irrefl, if_false] at h₁ h₂
        exact congrArg (a :: ·) (strLtAux_eq_of_not_lt h₁ h₂)
      · simp [hab] at h₂

theorem strLt_asymm {a b : String} (h : strLt a b = true) : strLt b a = false :=
  strLtAux_asymm h

theorem strLt_antisymm {a b : String} (h₁ : strLt a b = false) (h₂ : strLt b a = false) :
    a = b := by
  have := @strLtAux_eq_of_not_lt a.toList b.toList h₁ h₂
  cases a; cases b
  simpa [String.toList] using congrArg String.mk this

/-- One entry of `levels.data` / `levels.shortData` in a raw Fitbit sleep
record (`cli.py`): `{dateTime, level, seconds}`. -/
structure Seg where
  dateTime : String
  level : String
  seconds : Nat
deriving DecidableEq, Repr

/-- The `levels.summary` object: per-stage minute totals. A key that is absent
from the JSON object is `none`; `some m` is a key whose `minutes` field reads
`m` (a key present without `minutes` reads as `some 0`, matching
`summary.get(k, {}).get("minutes", 0)`). -/
structure Summary where
  deep : Option Nat
  light : Option Nat
  rem : Option Nat
  wake : Option Nat
  asleep : Option Nat
  awake : Option Nat
  restless : Option Nat
deriving DecidableEq, Repr

/-- The `levels` object of a raw sleep record. -/
structure Levels where
  summary : Summary
  data : List Seg
  shortData : List Seg
deriving DecidableEq, Repr

/-- A raw Fitbit sleep record, restricted to the fields `cli.py` reads. -/
structure SleepRecord where
  dateOfSleep : String
  isMainSleep : Bool
  startTime : String
  endTime : String
  efficiency : Nat
  levels : Levels
deriving DecidableEq, Repr

/-- A segment of a chart entry. `transform_for_chart` emits segments without
an `isNap` key (modelled `isNap := false`); `build` later sets `isNap := true`
on true-nap segments. -/
structure ChartSeg where
  dateTime : String
  level : String
  seconds : Nat
  isNap : Bool
deriving DecidableEq, Repr

/-- The chart entry built by `transform_for_chart` (before `build` attaches
activities/runs/subjective). `wake` is a rational because the code computes
`max(0, wake - seconds/60)` with Python true division. -/
structure Entry where
  date : String
  deep : ℚ
  light : ℚ
  rem : ℚ
  wake : ℚ
  efficiency : Nat
  startTime : String
  endTime : String
  segments : List ChartSeg
deriving DecidableEq, Repr

def toChartSeg (s : Seg) : ChartSeg :=
  { dateTime := s.dateTime, level := s.level, seconds := s.seconds, isNap := false }

/-- Stable insertion into a sorted list: an element is placed before the first
element it compares `le` to, so an element inserted from earlier in the
original list stays before later elements with an equal key. -/
def insertSorted (le : α → α → Bool) (a : α) : List α → List α
  | [] => [a]
  | b :: bs => if le a b then a :: b :: bs else b :: insertSorted le a bs

/-- Stable sort by a total preorder `le`. Python's `list.sort` is stable, and
a stable sort's output is uniquely determined by `le` and the input order, so
this insertion sort computes exactly what `list.sort(key=...)` does. -/
def sortBy (le : α → α → Bool) : List α → List α
  | [] => []
  | a :: as => insertSorted le a (sortBy le as)

theorem insertSorted_perm (le : α → α → Bool) (a : α) :
    ∀ l : List α, (insertSorted le a l).Perm (a :: l)
  | [] => List.Perm.refl _
  | b :: bs => by
      simp only [insertSorted]
      split
      · exact List.Perm.refl _
      · exact ((insertSorted_perm le a bs).cons b).trans (List.Perm.swap a b bs)

theorem sortBy_perm (le : α → α → Bool) : ∀ l : List α, (sortBy le l).Perm l
  | [] => List.Perm.refl _
  | a :: as =>
      (insertSorted_perm le a (sortBy le as)).trans ((sortBy_perm le as).cons a)

/-- `segments.sort(key=lambda s: s["dateTime"])`: stable sort by the
`dateTime` string. -/
def sortSegs (l : List ChartSeg) : List ChartSeg :=
  sortBy (fun a b => strLe a.dateTime b.dateTime) l

/-- Classic-tracking segment normalization (`cli.py` lines 250-254):
`asleep → light`, `awake`/`restless` → `wake`. -/
def normalizeClassicSeg (s : ChartSeg) : ChartSeg :=
  if s.level = "asleep" then { s with level := "light" }
  else if s.level = "awake" ∨ s.level = "restless" then { s with level := "wake" }
  else s

/-- The sorted (and, for classic tracking, level-normalized) segment list of
`transform_for_chart`: `levels.data + levels.shortData`, sorted by `dateTime`,
levels rewritten when the summary has no `deep` key. -/
def transformSegs (r : SleepRecord) : List ChartSeg :=
  let segs := sortSegs ((r.levels.data ++ r.levels.shortData).map toChartSeg)
  if r.levels.summary.deep.isSome then segs else segs.map normalizeClassicSeg

/-- Stage extraction for `deep` (`cli.py` lines 237-248). -/
def deepExtract (sm : Summary) : Nat :=
  if sm.deep.isSome then sm.deep.getD 0 else 0

/-- Stage extraction for `light`. -/
def lightExtract (sm : Summary) : Nat :=
  if sm.deep.isSome then sm.light.getD 0 else sm.asleep.getD 0

/-- Stage extraction for `rem`. -/
def remExtract (sm : Summary) : Nat :=
  if sm.deep.isSome then sm.rem.getD 0 else 0

/-- Stage extraction for `wake` (before terminal-awake trimming). -/
def wakeExtract (sm : Summary) : Nat :=
  if sm.deep.isSome then sm.wake.getD 0 else sm.awake.getD 0 + sm.restless.getD 0

/-- `terminal_awake` (`cli.py` lines 257-259): duration in minutes of the last
segment when its level is `wake`, else `0`. Python true division, so a `ℚ`. -/
def terminalAwake (segs : List ChartSeg) : ℚ :=
  match segs.getLast? with
  | some s => if s.level = "wake" then (s.seconds : ℚ) / 60 else 0
  | none => 0

/-- `transform_for_chart` (`cli.py` lines 227-271). -/
def transform_for_chart (r : SleepRecord) : Entry :=
  let segs := transformSegs r
  { date := r.dateOfSleep
    deep := (deepExtract r.levels.summary : ℚ)
    light := (lightExtract r.levels.summary : ℚ)
    rem := (remExtract r.levels.summary : ℚ)
    wake := max 0 ((wakeExtract r.levels.summary : ℚ) - terminalAwake segs)
    efficiency := r.efficiency
    startTime := r.startTime
    endTime := r.endTime
    segments := segs }

/-- C2: with a `deep` key in `levels.summary` the four stage-minute totals are
direct summary reads and segment levels are untouched; without it,
`deep = rem = 0`, `light` is the `asleep` minutes, `wake` (before trimming) is
`awake + restless` minutes, and every segment level is rewritten
`asleep → light`, `awake`/`restless` → `wake`. -/
theorem spec_C2 (r : SleepRecord) :
    (r.levels.summary.deep.isSome →
      (transform_for_chart r).deep = (r.levels.summary.deep.getD 0 : ℚ) ∧
      (transform_for_chart r).light = (r.levels.summary.light.getD 0 : ℚ) ∧
      (transform_for_chart r).rem = (r.levels.summary.rem.getD 0 : ℚ) ∧
      wakeExtract r.levels.summary = r.levels.summary.wake.getD 0 ∧
      (transform_for_chart r).segments =
        sortSegs ((r.levels.data ++ r.levels.shortData).map toChartSeg)) ∧
    (r.levels.summary.deep = none →
      (transform_for_chart r).deep = 0 ∧
      (transform_for_chart r).rem = 0 ∧
      (transform_for_chart r).light = (r.levels.summary.asleep.getD 0 : ℚ) ∧
      wakeExtract r.levels.summary =
        r.levels.summary.awake.getD 0 + r.levels.summary.restless.getD 0 ∧
      (transform_for_chart r).segments =
        (sortSegs ((r.levels.data ++ r.levels.shortData).map toChartSeg)).map
          normalizeClassicSeg ∧
      (∀ s : ChartSeg, (s.level = "asleep" → (normalizeClassicSeg s).level = "light") ∧
        ((s.level = "awake" ∨ s.level = "restless") →
          (normalizeClassicSeg s).level = "wake"))) := by
  constructor
  · intro h
    simp [transform_for_chart, transformSegs, deepExtract, lightExtract, remExtract,
      wakeExtract, h]
  · intro h
    refine ⟨?_, ?_, ?_, ?_, ?_, ?_⟩
    · simp [transform_for_chart, deepExtract, h]
    · simp [transform_for_chart, remExtract, h]
    · simp [transform_for_chart, lightExtract, h]
    · simp [wakeExtract, h]
    · simp [transform_for_chart, transformSegs, h]
    · intro s
      constructor
      · intro hs
        simp [normalizeClassicSeg, hs]
      · rintro (hs | hs) <;> simp [normalizeClassicSeg, hs]

/-- Witness for `spec_C2` at concrete stages and classic records. -/
theorem spec_C2_witness :
    ((transform_for_chart
        { dateOfSleep := "2025-01-01", isMainSleep := true, startTime := "a",
          endTime := "b", efficiency := 90,
          levels := { summary := { deep := some 10, light := some 200, rem := some 50,
                                   wake := some 20, asleep := none, awake := none,
                                   restless := none },
                      data := [], shortData := [] } }).deep = ((10 : Nat) : ℚ)) ∧
    ((transform_for_chart
        { dateOfSleep := "2025-01-02", isMainSleep := false, startTime := "a",
          endTime := "b", efficiency := 80,
          levels := { summary := { deep := none, light := none, rem := none,
                                   wake := none, asleep := some 30, awake := some 4,
                                   restless := some 3 },
                      data := [], shortData := [] } }).light = ((30 : Nat) : ℚ)) := by
  constructor
  · exact ((spec_C2 _).1 (by decide)).1
  · exact ((spec_C2 _).2 (by decide)).2.2.1

/-- C3: if the chronologically last segment has level `wake`, the output
`wake` is the extracted wake minutes minus that segment's duration in minutes,
floored at zero; otherwise (including when there are no segments) the `wake`
total is the extracted value unchanged. -/
theorem spec_C3 (r : SleepRecord) :
    (∀ s, (transformSegs r).getLast? = some s → s.level = "wake" →
      (transform_for_chart r).wake =
        max 0 ((wakeExtract r.levels.summary : ℚ) - (s.seconds : ℚ) / 60)) ∧
    (∀ s, (transformSegs r).getLast? = some s → s.level ≠ "wake" →
      (transform_for_chart r).wake = (wakeExtract r.levels.summary : ℚ)) ∧
    (transformSegs r = [] →
      (transform_for_chart r).wake = (wakeExtract r.levels.summary : ℚ)) := by
  refine ⟨?_, ?_, ?_⟩
  · intro s hs hw
    simp [transform_for_chart, terminalAwake, hs, hw]
  · intro s hs hw
    simp [transform_for_chart, terminalAwake, hs, hw]
  · intro h
    simp [transform_for_chart, terminalAwake, h]

/-- Witness for `spec_C3`: a stages record with a trailing 90-second wake
segment, and one whose last segment is `light`. -/
theorem spec_C3_witness :
    ((transform_for_chart
        { dateOfSleep := "2025-01-01", isMainSleep := true, startTime := "a",
          endTime := "b", efficiency := 90,
          levels := { summary := { deep := some 10, light := some 200, rem := some 50,
                                   wake := some 20, asleep := none, awake := none,
                                   restless := none },
                      data := [{ dateTime := "2025-01-01T07:00:00.000",
                                 level := "wake", seconds := 90 }],
                      shortData := [] } }).wake =
      max 0 (((20 : Nat) : ℚ) - ((90 : Nat) : ℚ) / 60)) ∧
    ((transform_for_chart
        { dateOfSleep := "2025-01-02", isMainSleep := true, startTime := "a",
          endTime := "b", efficiency := 90,
          levels := { summary := { deep := some 1, light := some 2, rem := some 3,
                                   wake := some 4, asleep := none, awake := none,
                                   restless := none },
                      data := [{ dateTime := "2025-01-02T07:00:00.000",
                                 level := "light", seconds := 60 }],
                      shortData := [] } }).wake = ((4 : Nat) : ℚ)) := by
  constructor
  · exact (spec_C3 _).1
      { dateTime := "2025-01-01T07:00:00.000", level := "wake", seconds := 90,
        isNap := false } (by decide) (by decide)
  · exact (spec_C3 _).2.1
      { dateTime := "2025-01-02T07:00:00.000", level := "light", seconds := 60,
        isNap := false } (by decide) (by decide)

theorem strLt_irrefl (a : String) : strLt a a = false := by
  show strLtAux a.toList a.toList = false
  induction a.toList with
  | nil => rfl
  | cons c cs ih => simp [strLtAux, ih]

theorem mem_sortBy {le : α → α → Bool} {a : α} {l : List α} :
    a ∈ sortBy le l ↔ a ∈ l :=
  (sortBy_perm le l).mem_iff

/-- Set the `isNap` flag on a chart segment (`seg["isNap"] = True`). -/
def setNap (s : ChartSeg) : ChartSeg := { s with isNap := true }

/-- The body of `build`'s nap loop (`cli.py` lines 174-194): add the nap's
stage minutes into the entry; if the nap ends at or before the captured
`main_start` it is a pre-sleep fixup (pull `startTime` back when the nap
starts earlier, segments appended unmodified), otherwise flag every nap
segment with `isNap` before appending. -/
def mergeNap (mainStart : String) (e napData : Entry) : Entry :=
  let e := { e with deep := e.deep + napData.deep, light := e.light + napData.light,
                    rem := e.rem + napData.rem, wake := e.wake + napData.wake }
  if strLe napData.endTime mainStart then
    let e := if strLt napData.startTime e.startTime
      then { e with startTime := napData.startTime } else e
    { e with segments := e.segments ++ napData.segments }
  else
    { e with segments := e.segments ++ napData.segments.map setNap }

theorem transform_isNap_false (r : SleepRecord) :
    ∀ s ∈ (transform_for_chart r).segments, s.isNap = false := by
  intro s hs
  have h : s ∈ transformSegs r := hs
  unfold transformSegs at h
  have base : ∀ t : ChartSeg,
      t ∈ sortSegs ((r.levels.data ++ r.levels.shortData).map toChartSeg) →
      t.isNap = false := by
    intro t ht
    have := mem_sortBy.mp ht
    obtain ⟨u, _, rfl⟩ := List.mem_map.mp this
    rfl
  rcases hd : r.levels.summary.deep.isSome with h1 | h1
  · rw [hd] at h
    simp only [Bool.false_eq_true, if_false, List.mem_map] at h
    obtain ⟨t, ht, rfl⟩ := h
    have := base t ht
    unfold normalizeClassicSeg
    split
    · exact this
    · split
      · exact this
      · exact this
  · rw [hd] at h
    simp only [if_true] at h
    exact base s h

/-- C1: a nap whose `endTime` is at most the captured main start (boundary
inclusive, so `endTime = main_start` counts as pre-sleep) moves the entry's
`startTime` to the minimum of the entry's and the nap's start times and
appends its segments unmodified — in particular never flagged `isNap`, since
`transform_for_chart` output always has `isNap = false`; any other nap leaves
`startTime` unchanged and appends its segments flagged `isNap := true`. -/
theorem spec_C1 (mainStart : String) (e napData : Entry) :
    (strLe napData.endTime mainStart = true →
      (mergeNap mainStart e napData).startTime = strMin e.startTime napData.startTime ∧
      (mergeNap mainStart e napData).segments = e.segments ++ napData.segments) ∧
    (strLe napData.endTime mainStart = false →
      (mergeNap mainStart e napData).startTime = e.startTime ∧
      (mergeNap mainStart e napData).segments =
        e.segments ++ napData.segments.map setNap) ∧
    (napData.endTime = mainStart → strLe napData.endTime mainStart = true) ∧
    (∀ r : SleepRecord, ∀ s ∈ (transform_for_chart r).segments, s.isNap = false) := by
  refine ⟨?_, ?_, ?_, transform_isNap_false⟩
  · intro h
    constructor
    · rcases hlt : strLt napData.startTime e.startTime with h1 | h1
      · rcases hlt' : strLt e.startTime napData.startTime with h2 | h2
        · have : e.startTime = napData.startTime := strLt_antisymm hlt' hlt
          simp [mergeNap, h, hlt, strMin, hlt', this]
        · simp [mergeNap, h, hlt, strMin, hlt']
      · have h2 : strLt e.startTime napData.startTime = false := strLt_asymm hlt
        simp [mergeNap, h, hlt, strMin, h2]
    · rcases hlt : strLt napData.startTime e.startTime with h1 | h1 <;>
        simp [mergeNap, h, hlt]
  · intro h
    constructor <;> simp [mergeNap, h]
  · intro h
    subst h
    simp [strLe, strLt_irrefl]

/-- A small concrete chart entry used by witnesses. -/
def entryA : Entry :=
  { date := "2025-01-01", deep := 0, light := 0, rem := 0, wake := 0,
    efficiency := 0, startTime := "2025-01-01T01:00:00.000",
    endTime := "2025-01-01T08:00:00.000",
    segments := [{ dateTime := "2025-01-01T01:00:00.000", level := "light",
                   seconds := 60, isNap := false }] }

/-- A concrete nap entry ending before `entryA` starts. -/
def napB : Entry :=
  { date := "2025-01-01", deep := 0, light := 1, rem := 0, wake := 0,
    efficiency := 0, startTime := "2025-01-01T00:00:00.000",
    endTime := "2025-01-01T00:30:00.000",
    segments := [{ dateTime := "2025-01-01T00:00:00.000", level := "light",
                   seconds := 1800, isNap := false }] }

/-- A concrete nap entry ending after `entryA` starts. -/
def napC : Entry :=
  { date := "2025-01-01", deep := 0, light := 1, rem := 0, wake := 0,
    efficiency := 0, startTime := "2025-01-01T14:00:00.000",
    endTime := "2025-01-01T15:00:00.000",
    segments := [{ dateTime := "2025-01-01T14:00:00.000", level := "light",
                   seconds := 3600, isNap := false }] }

/-- Witness for `spec_C1`: both branches and the `isNap` facts at concrete
inputs. -/
theorem spec_C1_witness :
    ((mergeNap "2025-01-01T01:00:00.000" entryA napB).startTime =
      strMin entryA.startTime napB.startTime) ∧
    ((mergeNap "2025-01-01T01:00:00.000" entryA napB).segments =
      entryA.segments ++ napB.segments) ∧
    ((mergeNap "2025-01-01T01:00:00.000" entryA napC).startTime =
      entryA.startTime) ∧
    ((mergeNap "2025-01-01T01:00:00.000" entryA napC).segments =
      entryA.segments ++ napC.segments.map setNap) ∧
    (strLe napB.endTime napB.endTime = true) ∧
    ((⟨"2025-01-01T01:00:00.000", "light", 60, false⟩ : ChartSeg).isNap = false) := by
  refine ⟨?_, ?_, ?_, ?_, ?_, ?_⟩
  · exact ((spec_C1 _ entryA napB).1 (by decide)).1
  · exact ((spec_C1 _ entryA napB).1 (by decide)).2
  · exact ((spec_C1 _ entryA napC).2.1 (by decide)).1
  · exact ((spec_C1 _ entryA napC).2.1 (by decide)).2
  · exact (spec_C1 napB.endTime entryA napB).2.2.1 rfl
  · exact (spec_C1 "2025-01-01T01:00:00.000" entryA napB).2.2.2
      { dateOfSleep := "2025-01-01", isMainSleep := true,
        startTime := "2025-01-01T01:00:00.000",
        endTime := "2025-01-01T08:00:00.000", efficiency := 0,
        levels := { summary := { deep := some 1, light := none, rem := none,
                                 wake := none, asleep := none, awake := none,
                                 restless := none },
                    data := [{ dateTime := "2025-01-01T01:00:00.000",
                               level := "light", seconds := 60 }],
                    shortData := [] } }
      _ (by decide)

/-- Python `round(q)`: round half to even (banker's rounding). Off the exact
half-way points it agrees with rounding to the nearest integer. -/
def pyRound (q : ℚ) : ℤ :=
  if q - ⌊q⌋ = 1 / 2 then (if Even ⌊q⌋ then ⌊q⌋ else ⌊q⌋ + 1) else round q

/-- Python `round(q, n)`: round to `n` decimal places, half to even. -/
def pyRoundTo (q : ℚ) (n : ℕ) : ℚ := (pyRound (q * 10 ^ n) : ℚ) / 10 ^ n

/-- A raw Fitbit activity, restricted to the fields `process_activity` reads.
A missing `startTime` is modelled as `""` (the code reads
`act.get("startTime", "")` and only tests falsiness). -/
structure Activity where
  startTime : String
  activeDuration : Nat
  distance : ℚ
  activityName : Option String
deriving DecidableEq, Repr

/-- The normalized activity produced by `process_activity`. -/
structure ProcessedActivity where
  activityName : Option String
  date : String
  startTime : String
  duration : ℤ
  distance : ℚ
  speed : ℚ
deriving DecidableEq, Repr

/-- `process_activity` (`cli.py` lines 274-288). -/
def process_activity (act : Activity) : Option ProcessedActivity :=
  if act.startTime = "" then none
  else
    let durationMin : ℚ := (act.activeDuration : ℚ) / 1000 / 60
    some { activityName := act.activityName
           date := act.startTime.take 10
           startTime := act.startTime
           duration := pyRound durationMin
           distance := pyRoundTo act.distance 2
           speed := if 0 < durationMin then pyRoundTo (act.distance / (durationMin / 60)) 1
                    else 0 }

/-- `is_run` (`cli.py` lines 291-293): speed strictly above 8 km/h. -/
def is_run (a : ProcessedActivity) : Bool := decide (8 < a.speed)

/-- Activity with positive duration and zero distance: processed, its `speed`
is `0` while its `duration` is `10`. -/
def zeroDistanceRun : Activity :=
  { startTime := "2025-01-01T08:00:00.000", activeDuration := 600000,
    distance := 0, activityName := some "Run" }

/-- Counterexample to C4: the claim `speed = 0 ↔ duration = 0` fails — a
10-minute activity of distance 0 is processed with `speed = 0` and
`duration = 10 ≠ 0`. -/
theorem spec_C4_counterexample :
    ∃ p, process_activity zeroDistanceRun = some p ∧ p.speed = 0 ∧ p.duration ≠ 0 := by
  refine ⟨_, rfl, ?_, ?_⟩
  · show (if 0 < ((600000 : ℕ) : ℚ) / 1000 / 60
        then pyRoundTo ((0 : ℚ) / (((600000 : ℕ) : ℚ) / 1000 / 60 / 60)) 1 else 0) = 0
    rw [if_pos (by norm_num)]
    norm_num [pyRoundTo, pyRound, round_eq]
  · show pyRound (((600000 : ℕ) : ℚ) / 1000 / 60) ≠ 0
    norm_num [pyRound, round_eq]

/-- C4 as amended: `process_activity` returns `none` exactly when `startTime`
is empty/missing; when `activeDuration = 0` the processed `speed` and
`duration` are both `0` (but `speed = 0` does not imply `duration = 0` in
general, see the counterexample); and a processed activity `is_run` exactly
when its `speed` exceeds 8. -/
theorem spec_C4 (act : Activity) :
    (process_activity act = none ↔ act.startTime = "") ∧
    (∀ p, process_activity act = some p →
      ((act.activeDuration = 0 → p.speed = 0 ∧ p.duration = 0) ∧
       (is_run p = true ↔ 8 < p.speed))) := by
  constructor
  · constructor
    · intro h
      by_contra hne
      rw [process_activity, if_neg hne] at h
      exact Option.some_ne_none _ h
    · intro h
      rw [process_activity, if_pos h]
  · intro p hp
    constructor
    · intro hz
      rw [process_activity] at hp
      by_cases he : act.startTime = ""
      case pos =>
        rw [if_pos he] at hp
        exact absurd hp (Option.noConfusion)
      case neg =>
        rw [if_neg he] at hp
        rw [Option.some_inj] at hp
        subst hp
        have hm : ((act.activeDuration : ℚ) / 1000 / 60) = 0 := by
          rw [hz]; norm_num
        constructor
        · show (if 0 < (act.activeDuration : ℚ) / 1000 / 60
              then pyRoundTo (act.distance / ((act.activeDuration : ℚ) / 1000 / 60 / 60)) 1
              else 0) = 0
          rw [if_neg (by rw [hm]; norm_num)]
        · show pyRound ((act.activeDuration : ℚ) / 1000 / 60) = 0
          rw [hm]
          norm_num [pyRound, round_eq]
    · exact decide_eq_true_iff

/-- Witness for `spec_C4` at a concrete zero-duration activity. -/
theorem spec_C4_witness :
    (process_activity { startTime := "", activeDuration := 0, distance := 1,
                        activityName := none } = none) ∧
    (∀ p, process_activity { startTime := "2025-01-02T08:00:00.000",
                             activeDuration := 0, distance := 1,
                             activityName := none } = some p →
      p.speed = 0 ∧ p.duration = 0) := by
  constructor
  · exact (spec_C4 _).1.mpr rfl
  · intro p hp
    exact ((spec_C4 _).2 p hp).1 rfl


theorem toNat_ofNat_of_valid {n : ℕ} (h : n.isValidChar) : (Char.ofNat n).toNat = n := by
  unfold Char.ofNat
  rw [dif_pos h]
  rfl

/-- `Char.toLower` maps a character to `'x'` exactly when it is `'x'` or
`'X'`. -/
theorem toLower_eq_x_iff (c : Char) : c.toLower = 'x' ↔ c = 'x' ∨ c = 'X' := by
  constructor
  · intro h
    simp only [Char.toLower] at h
    split at h
    case isTrue hc =>
      right
      have hval : (c.toNat + 32).isValidChar := by
        left
        omega
      have := congrArg Char.toNat h
      rw [toNat_ofNat_of_valid hval] at this
      have hc88 : c.toNat = 88 := by
        have hx : ('x' : Char).toNat = 120 := rfl
        omega
      have := Char.ofNat_toNat c
      rw [hc88] at this
      exact this.symm
    case isFalse hc =>
      left
      exact h
  · rintro (rfl | rfl) <;> decide

/-- Remove every `'x'` and `'X'`
(`data.replace("x", "").replace("X", "")`). -/
def stripX (l : List Char) : List Char :=
  l.filter (fun c => ¬ (c = 'x' ∨ c = 'X'))

/-- The leftmost maximal digit run, as matched by `re.search(r"(\d+)", s)`. -/
def firstDigitRun (l : List Char) : List Char :=
  (l.dropWhile (fun c => ¬ c.isDigit)).takeWhile (fun c => c.isDigit)

/-- Decimal value of a digit run (`int(match.group(1))`). -/
def digitsToNat (l : List Char) : ℕ :=
  l.foldl (fun a c => 10 * a + (c.toNat - 48)) 0

/-- The parsed subjective annotation. -/
structure Subjective where
  code : Option String
  score : Option Nat
  raw : String
  exclude : Bool
deriving DecidableEq, Repr

/-- `parse_subjective` (`cli.py` lines 312-321), on the row's `data` text:
`exclude` is `"x" in data.lower()`; `clean` strips `x`/`X`; `score` is the
first maximal digit run of `clean` (`re.search(r"(\d+)", clean)`), `none` when
there is no digit; `code` is `clean` with every digit removed
(`re.sub(r"\d+", "", clean)`), `none` when empty. -/
def parse_subjective (data : String) : Subjective :=
  let lower := data.toList.map Char.toLower
  let clean := stripX data.toList
  let run := firstDigitRun clean
  let codeChars := clean.filter (fun c => ¬ c.isDigit)
  { code := if codeChars.isEmpty then none else some (String.mk codeChars)
    score := if run.isEmpty then none else some (digitsToNat run)
    raw := data
    exclude := lower.contains 'x' }

/-- C8: `exclude` holds exactly when the text contains `x` or `X`; `raw` is
the original text; and the two concrete examples of the spec:
`"c9" ↦ {code := "c", score := 9, exclude := false}` and
`"X" ↦ {code := none, score := none, exclude := true}`. -/
theorem spec_C8 :
    (∀ data : String,
      ((parse_subjective data).exclude = true ↔
        ∃ c ∈ data.toList, c = 'x' ∨ c = 'X') ∧
      (parse_subjective data).raw = data) ∧
    parse_subjective "c9" =
      { code := some "c", score := some 9, raw := "c9", exclude := false } ∧
    parse_subjective "X" =
      { code := none, score := none, raw := "X", exclude := true } := by
  refine ⟨?_, by decide, by decide⟩
  intro data
  refine ⟨?_, rfl⟩
  show (data.toList.map Char.toLower).contains 'x' = true ↔ _
  rw [List.contains_iff_exists_mem_beq]
  constructor
  · rintro ⟨c, hc, hbeq⟩
    obtain ⟨d, hd, rfl⟩ := List.mem_map.mp hc
    refine ⟨d, hd, ?_⟩
    rw [beq_iff_eq] at hbeq
    exact (toLower_eq_x_iff d).mp hbeq.symm
  · rintro ⟨c, hc, hcx⟩
    refine ⟨c.toLower, List.mem_map_of_mem _ hc, ?_⟩
    rw [beq_iff_eq]
    exact ((toLower_eq_x_iff c).mpr hcx).symm

/-- The observable trace of one fetch call in `fitbit.py`: the endpoints
requested in order, whether a token refresh happened, and the outcome —
`Except.error s` models `raise_for_status()` raising on a non-2xx final
status `s`, `Except.ok t` models a normal return carrying
`new_tokens_if_refreshed`. -/
structure FetchTrace where
  requests : List String
  refreshed : Bool
  outcome : Except Nat (Option String)
deriving Repr

/-- Whether `httpx.Response.raise_for_status` passes: a 2xx status. -/
def is2xx (s : Nat) : Bool := decide (200 ≤ s ∧ s < 300)

/-- Common skeleton of `fetch_sleep_data` / `fetch_activities`
(`fitbit.py` lines 11-31 and 34-53): one authenticated GET; on a 401,
refresh the token (`refresh_access_token`, modelled as the oracle-supplied
`refreshTok`) and retry the same request once; then `raise_for_status`.
`statusOf n` is the status of the `n`-th request issued. -/
def fetchWithRefresh (url : String) (statusOf : Nat → Nat) (refreshTok : String) :
    FetchTrace :=
  let s1 := statusOf 0
  if s1 = 401 then
    let s2 := statusOf 1
    { requests := [url, url], refreshed := true,
      outcome := if is2xx s2 then Except.ok (some refreshTok) else Except.error s2 }
  else
    { requests := [url], refreshed := false,
      outcome := if is2xx s1 then Except.ok none else Except.error s1 }

/-- The status of the response `raise_for_status()` finally inspects: the
retry's response when the first response was a 401, else the first
response. -/
def finalStatus (statusOf : Nat → Nat) : Nat :=
  if statusOf 0 = 401 then statusOf 1 else statusOf 0

/-- `fetch_sleep_data` (`fitbit.py` lines 11-31), data payload abstracted. -/
def fetch_sleep_data (statusOf : Nat → Nat) (refreshTok : String) : FetchTrace :=
  fetchWithRefresh "SLEEP_ENDPOINT" statusOf refreshTok

/-- `fetch_activities` (`fitbit.py` lines 34-53), data payload abstracted. -/
def fetch_activities (statusOf : Nat → Nat) (refreshTok : String) : FetchTrace :=
  fetchWithRefresh "ACTIVITIES_ENDPOINT" statusOf refreshTok

theorem fetchWithRefresh_spec (url : String) (statusOf : Nat → Nat) (tok : String) :
    ((fetchWithRefresh url statusOf tok).requests.length ≤ 2) ∧
    ((fetchWithRefresh url statusOf tok).requests =
      if statusOf 0 = 401 then [url, url] else [url]) ∧
    ((fetchWithRefresh url statusOf tok).refreshed = true ↔ statusOf 0 = 401) ∧
    (∀ t, (fetchWithRefresh url statusOf tok).outcome = Except.ok t →
      (t.isSome = true ↔ statusOf 0 = 401)) ∧
    (∀ s, (fetchWithRefresh url statusOf tok).outcome = Except.error s →
      is2xx s = false) ∧
    (is2xx (finalStatus statusOf) = false →
      (fetchWithRefresh url statusOf tok).outcome =
        Except.error (finalStatus statusOf)) ∧
    (is2xx (finalStatus statusOf) = true →
      ∃ t, (fetchWithRefresh url statusOf tok).outcome = Except.ok t) := by
  refine ⟨?_, ?_, ?_, ?_, ?_, ?_, ?_⟩
  · by_cases h : statusOf 0 = 401 <;> simp [fetchWithRefresh, h]
  · by_cases h : statusOf 0 = 401 <;> simp [fetchWithRefresh, h]
  · by_cases h : statusOf 0 = 401 <;> simp [fetchWithRefresh, h]
  · intro t ht
    by_cases h : statusOf 0 = 401
    · by_cases h2 : is2xx (statusOf 1) = true
      · simp only [fetchWithRefresh, h, if_true, h2, if_pos] at ht
        rw [Except.ok.injEq] at ht
        subst ht
        simp [h]
      · rw [Bool.not_eq_true] at h2
        simp [fetchWithRefresh, h, h2] at ht
    · by_cases h2 : is2xx (statusOf 0) = true
      · simp only [fetchWithRefresh, h, if_false, h2, if_pos] at ht
        rw [Except.ok.injEq] at ht
        subst ht
        simp [h]
      · rw [Bool.not_eq_true] at h2
        simp [fetchWithRefresh, h, h2] at ht
  · intro s hs
    by_cases h : statusOf 0 = 401
    · by_cases h2 : is2xx (statusOf 1) = true
      · simp [fetchWithRefresh, h, h2] at hs
      · rw [Bool.not_eq_true] at h2
        simp only [fetchWithRefresh, h, if_true, h2, Bool.false_eq_true, if_false] at hs
        rw [Except.error.injEq] at hs
        rw [← hs]
        exact h2
    · by_cases h2 : is2xx (statusOf 0) = true
      · simp [fetchWithRefresh, h, h2] at hs
      · rw [Bool.not_eq_true] at h2
        simp only [fetchWithRefresh, h, if_false, h2, Bool.false_eq_true] at hs
        rw [Except.error.injEq] at hs
        rw [← hs]
        exact h2
  · intro hbad
    by_cases h : statusOf 0 = 401
    · simp only [finalStatus, h, if_true] at hbad ⊢
      simp [fetchWithRefresh, h, hbad]
    · simp only [finalStatus, h, if_false] at hbad ⊢
      simp [fetchWithRefresh, h, hbad]
  · intro hgood
    by_cases h : statusOf 0 = 401
    · refine ⟨some tok, ?_⟩
      simp only [finalStatus, h, if_true] at hgood
      simp [fetchWithRefresh, h, hgood]
    · refine ⟨none, ?_⟩
      simp only [finalStatus, h, if_false] at hgood
      simp [fetchWithRefresh, h, hgood]

/-- C9: each of `fetch_sleep_data` and `fetch_activities` issues at most two
requests; it refreshes and retries the same request exactly when the first
response is a 401; the returned tokens are non-null exactly when a refresh
occurred; and `raise_for_status` raises exactly on a non-2xx final response
(with no further retry): a raised status is never 2xx, a non-2xx final status
always produces the error outcome, and a 2xx final status returns normally. -/
theorem spec_C9 (statusOf : Nat → Nat) (tok : String) :
    (((fetch_sleep_data statusOf tok).requests.length ≤ 2) ∧
     ((fetch_sleep_data statusOf tok).requests =
       if statusOf 0 = 401 then ["SLEEP_ENDPOINT", "SLEEP_ENDPOINT"]
       else ["SLEEP_ENDPOINT"]) ∧
     ((fetch_sleep_data statusOf tok).refreshed = true ↔ statusOf 0 = 401) ∧
     (∀ t, (fetch_sleep_data statusOf tok).outcome = Except.ok t →
       (t.isSome = true ↔ statusOf 0 = 401)) ∧
     (∀ s, (fetch_sleep_data statusOf tok).outcome = Except.error s →
       is2xx s = false) ∧
     (is2xx (finalStatus statusOf) = false →
       (fetch_sleep_data statusOf tok).outcome =
         Except.error (finalStatus statusOf)) ∧
     (is2xx (finalStatus statusOf) = true →
       ∃ t, (fetch_sleep_data statusOf tok).outcome = Except.ok t)) ∧
    (((fetch_activities statusOf tok).requests.length ≤ 2) ∧
     ((fetch_activities statusOf tok).requests =
       if statusOf 0 = 401 then ["ACTIVITIES_ENDPOINT", "ACTIVITIES_ENDPOINT"]
       else ["ACTIVITIES_ENDPOINT"]) ∧
     ((fetch_activities statusOf tok).refreshed = true ↔ statusOf 0 = 401) ∧
     (∀ t, (fetch_activities statusOf tok).outcome = Except.ok t →
       (t.isSome = true ↔ statusOf 0 = 401)) ∧
     (∀ s, (fetch_activities statusOf tok).outcome = Except.error s →
       is2xx s = false) ∧
     (is2xx (finalStatus statusOf) = false →
       (fetch_activities statusOf tok).outcome =
         Except.error (finalStatus statusOf)) ∧
     (is2xx (finalStatus statusOf) = true →
       ∃ t, (fetch_activities statusOf tok).outcome = Except.ok t)) :=
  ⟨fetchWithRefresh_spec _ statusOf tok, fetchWithRefresh_spec _ statusOf tok⟩

/-- Witness for `spec_C9`: a 401-then-200 response sequence returns refreshed
tokens, and an all-500 sequence raises with the 500 status. -/
theorem spec_C9_witness :
    ((some "tok2" : Option String).isSome = true ↔
      (fun n : Nat => if n = 0 then 401 else 200) 0 = 401) ∧
    (is2xx 500 = false) ∧
    ((fetch_sleep_data (fun _ : Nat => 500) "t").outcome =
      Except.error (finalStatus (fun _ : Nat => 500))) := by
  refine ⟨?_, ?_, ?_⟩
  · exact (spec_C9 (fun n : Nat => if n = 0 then 401 else 200) "tok2").1.2.2.2.1
      (some "tok2") rfl
  · exact (spec_C9 (fun _ : Nat => 500) "t").1.2.2.2.2.1 500 rfl
  · exact (spec_C9 (fun _ : Nat => 500) "t").1.2.2.2.2.2.1 (by decide)

/-- One value of `build`'s `by_date` dict: the (last-written) main-sleep
record, and the other records for the date in input order. -/
structure DateGroup where
  main : Option SleepRecord
  naps : List SleepRecord
deriving DecidableEq, Repr

/-- Route one record into a group (`cli.py` lines 160-163): an
`isMainSleep` record overwrites `main`; anything else is appended to
`naps`. -/
def extendG (g : DateGroup) (r : SleepRecord) : DateGroup :=
  if r.isMainSleep then { g with main := some r } else { g with naps := g.naps ++ [r] }

/-- Assignment `by_date[d] = g` on an insertion-ordered association list:
replace in place if the key exists, else append at the end (Python dicts
preserve insertion order). -/
def setG : List (String × DateGroup) → String → DateGroup → List (String × DateGroup)
  | [], d, g => [(d, g)]
  | (k, v) :: rest, d, g =>
      if k = d then (d, g) :: rest else (k, v) :: setG rest d g

/-- Process one raw record into `by_date` (`cli.py` lines 156-163). -/
def addRecord (m : List (String × DateGroup)) (r : SleepRecord) : List (String × DateGroup) :=
  setG m r.dateOfSleep (extendG ((List.lookup r.dateOfSleep m).getD ⟨none, []⟩) r)

/-- The `by_date` dict of `build` (`cli.py` lines 155-163). -/
def groupByDate (rs : List SleepRecord) : List (String × DateGroup) :=
  rs.foldl addRecord []

/-- The records of `rs` whose `dateOfSleep` is `d`, in input order. -/
def recordsFor (rs : List SleepRecord) (d : String) : List SleepRecord :=
  rs.filter (fun r => r.dateOfSleep == d)

/-- The main-sleep records of `rs` for date `d`, in input order. -/
def mainsFor (rs : List SleepRecord) (d : String) : List SleepRecord :=
  (recordsFor rs d).filter (fun r => r.isMainSleep)

/-- The non-main records of `rs` for date `d`, in input order. -/
def napsFor (rs : List SleepRecord) (d : String) : List SleepRecord :=
  (recordsFor rs d).filter (fun r => !r.isMainSleep)

theorem lookup_setG (d g d') : ∀ m : List (String × DateGroup),
    List.lookup d' (setG m d g) = if d' = d then some g else List.lookup d' m
  | [] => by
      by_cases h : d' = d
      · simp [setG, List.lookup, h]
      · simp [setG, List.lookup, h, beq_eq_false_iff_ne.mpr h]
  | (k, v) :: rest => by
      by_cases hk : k = d
      · subst hk
        by_cases h : d' = k
        · simp [setG, List.lookup, h]
        · simp [setG, List.lookup, h, beq_eq_false_iff_ne.mpr h]
      · by_cases h : d' = k
        · subst h
          have hd : ¬ d' = d := hk
          simp [setG, hk, List.lookup, hd]
        · simp [setG, hk, List.lookup, beq_eq_false_iff_ne.mpr h,
            lookup_setG d g d' rest]

theorem keys_setG (d g) : ∀ m : List (String × DateGroup),
    (setG m d g).map Prod.fst =
      if d ∈ m.map Prod.fst then m.map Prod.fst else m.map Prod.fst ++ [d]
  | [] => by simp [setG]
  | (k, v) :: rest => by
      by_cases hk : k = d
      · subst hk
        simp [setG]
      · simp only [setG, if_neg hk, List.map_cons, keys_setG d g rest]
        by_cases h : d ∈ rest.map Prod.fst <;>
          simp [h, List.mem_cons, Ne.symm hk]

theorem nodup_keys_setG {m : List (String × DateGroup)} (d g)
    (h : (m.map Prod.fst).Nodup) : ((setG m d g).map Prod.fst).Nodup := by
  rw [keys_setG]
  by_cases hd : d ∈ m.map Prod.fst
  · simpa [hd] using h
  · simp only [hd, if_false]
    simp [List.nodup_append, h, hd]

theorem nodup_keys_foldl : ∀ (rs : List SleepRecord) (m : List (String × DateGroup)),
    (m.map Prod.fst).Nodup → ((rs.foldl addRecord m).map Prod.fst).Nodup
  | [], _, h => h
  | r :: rs, m, h =>
      nodup_keys_foldl rs (addRecord m r) (nodup_keys_setG _ _ h)

theorem nodup_keys_groupByDate (rs : List SleepRecord) :
    ((groupByDate rs).map Prod.fst).Nodup :=
  nodup_keys_foldl rs [] List.nodup_nil

theorem lookup_foldl_addRecord :
    ∀ (rs : List SleepRecord) (m : List (String × DateGroup)) (d : String),
    List.lookup d (rs.foldl addRecord m) =
      if (recordsFor rs d).isEmpty then List.lookup d m
      else some ((recordsFor rs d).foldl extendG
        ((List.lookup d m).getD ⟨none, []⟩))
  | [], m, d => by simp [recordsFor]
  | r :: rs, m, d => by
      have hstep : List.lookup d (addRecord m r) =
          if d = r.dateOfSleep
          then some (extendG ((List.lookup r.dateOfSleep m).getD ⟨none, []⟩) r)
          else List.lookup d m := by
        rw [addRecord, lookup_setG]
      by_cases hd : r.dateOfSleep = d
      · subst hd
        have hrec : recordsFor (r :: rs) r.dateOfSleep =
            r :: recordsFor rs r.dateOfSleep := by
          simp [recordsFor]
        rw [List.foldl_cons, lookup_foldl_addRecord rs (addRecord m r) r.dateOfSleep,
          hrec]
        rw [if_pos rfl] at hstep
        by_cases he : (recordsFor rs r.dateOfSleep).isEmpty
        · simp only [he, if_true, List.isEmpty_cons, if_neg Bool.false_ne_true]
          rw [hstep]
          simp [List.isEmpty_iff.mp he]
        · simp only [he, List.isEmpty_cons, if_neg Bool.false_ne_true,
            Bool.false_eq_true, if_false]
          rw [hstep]
          simp
      · have hrec : recordsFor (r :: rs) d = recordsFor rs d := by
          simp [recordsFor, beq_eq_false_iff_ne.mpr hd]
        rw [List.foldl_cons, lookup_foldl_addRecord rs (addRecord m r) d, hrec]
        rw [if_neg (fun h => hd h.symm)] at hstep
        rw [hstep]

theorem foldl_extendG_main : ∀ (l : List SleepRecord) (g : DateGroup),
    (l.foldl extendG g).main =
      ((l.filter (fun r => r.isMainSleep)).getLast?).or g.main
  | [], g => by simp
  | r :: l, g => by
      rcases hr : r.isMainSleep with h1 | h1
      · rw [List.foldl_cons, foldl_extendG_main l (extendG g r)]
        simp [extendG, hr]
      · rw [List.foldl_cons, foldl_extendG_main l (extendG g r)]
        have hfilter : (r :: l).filter (fun r => r.isMainSleep) =
            r :: l.filter (fun r => r.isMainSleep) := by simp [hr]
        rw [hfilter]
        have hlast : (r :: l.filter (fun r => r.isMainSleep)).getLast? =
            ((l.filter (fun r => r.isMainSleep)).getLast?).or (some r) := by
          rcases hl : l.filter (fun r => r.isMainSleep) with _ | ⟨a, as⟩
          · rw [hl]
            simp [Option.or]
          · rw [hl, List.getLast?_cons_cons]
            rcases hsome : (a :: as).getLast? with _ | b
            · have hh : (a :: as).getLast?.isSome = true := by
                rw [List.getLast?_isSome]
                simp
              rw [hsome] at hh
              simp at hh
            · simp [Option.or]
        rw [hlast, Option.or_assoc]
        simp [extendG, hr, Option.or]

theorem foldl_extendG_naps : ∀ (l : List SleepRecord) (g : DateGroup),
    (l.foldl extendG g).naps = g.naps ++ l.filter (fun r => !r.isMainSleep)
  | [], g => by simp
  | r :: l, g => by
      rcases hr : r.isMainSleep with h1 | h1
      · rw [List.foldl_cons, foldl_extendG_naps l (extendG g r)]
        simp [extendG, hr]
      · rw [List.foldl_cons, foldl_extendG_naps l (extendG g r)]
        simp [extendG, hr]

theorem lookup_groupByDate (rs : List SleepRecord) (d : String) :
    List.lookup d (groupByDate rs) =
      if (recordsFor rs d).isEmpty then none
      else some { main := (mainsFor rs d).getLast?, naps := napsFor rs d } := by
  rw [groupByDate, lookup_foldl_addRecord]
  by_cases he : (recordsFor rs d).isEmpty
  · simp [he]
  · simp only [he, Bool.false_eq_true, if_false, List.lookup, Option.getD_none]
    refine congrArg some ?_
    have h1 := foldl_extendG_main (recordsFor rs d) ⟨none, []⟩
    have h2 := foldl_extendG_naps (recordsFor rs d) ⟨none, []⟩
    calc (recordsFor rs d).foldl extendG ⟨none, []⟩
        = ⟨((recordsFor rs d).foldl extendG ⟨none, []⟩).main,
           ((recordsFor rs d).foldl extendG ⟨none, []⟩).naps⟩ := rfl
      _ = _ := by
          rw [h1, h2]
          rw [DateGroup.mk.injEq]
          constructor
          · rw [mainsFor]
            exact Option.or_none
          · rw [napsFor]
            simp

/-- C10: when several records share a `dateOfSleep` and more than one has
`isMainSleep`, the group for that date keeps only the last main-sleep record
in input order as `main`, and its `naps` are exactly the non-main records for
the date — earlier main-sleep records appear in neither, so they contribute
nothing to the chart entry (which is built from `main` and `naps` alone). -/
theorem lookup_groupByDate_char {rs : List SleepRecord} {d : String} {g : DateGroup}
    (h : List.lookup d (groupByDate rs) = some g) :
    g.main = (mainsFor rs d).getLast? ∧ g.naps = napsFor rs d := by
  rw [lookup_groupByDate] at h
  by_cases he : (recordsFor rs d).isEmpty
  · rw [if_pos he] at h
    exact absurd h (Option.noConfusion)
  · rw [if_neg he] at h
    rw [Option.some_inj] at h
    rw [← h]
    exact ⟨rfl, rfl⟩

theorem spec_C10 (rs : List SleepRecord) (d : String) (g : DateGroup)
    (h : List.lookup d (groupByDate rs) = some g) :
    g.main = (mainsFor rs d).getLast? ∧ g.naps = napsFor rs d :=
  lookup_groupByDate_char h

/-- Two main-sleep records and one nap on the same date, used to witness
`spec_C10`. -/
def mainFirst : SleepRecord :=
  { dateOfSleep := "2025-03-01", isMainSleep := true,
    startTime := "2025-02-28T22:00:00.000", endTime := "2025-03-01T06:00:00.000",
    efficiency := 90,
    levels := { summary := { deep := some 1, light := some 2, rem := some 3,
                             wake := some 4, asleep := none, awake := none,
                             restless := none },
                data := [], shortData := [] } }

/-- The later main-sleep record for the witness date. -/
def mainSecond : SleepRecord :=
  { mainFirst with startTime := "2025-02-28T23:00:00.000", efficiency := 80 }

/-- A nap record for the witness date. -/
def napThird : SleepRecord :=
  { mainFirst with isMainSleep := false,
                   startTime := "2025-03-01T14:00:00.000",
                   endTime := "2025-03-01T15:00:00.000" }

/-- Witness for `spec_C10`: with `[mainFirst, mainSecond, napThird]` on one
date, the group's `main` is the last main record and `naps` holds only the
nap. -/
theorem spec_C10_witness :
    ({ main := some mainSecond, naps := [napThird] } : DateGroup).main =
      (mainsFor [mainFirst, mainSecond, napThird] "2025-03-01").getLast? ∧
    ({ main := some mainSecond, naps := [napThird] } : DateGroup).naps =
      napsFor [mainFirst, mainSecond, napThird] "2025-03-01" :=
  spec_C10 [mainFirst, mainSecond, napThird] "2025-03-01"
    { main := some mainSecond, naps := [napThird] } (by decide)

/-- Build one chart entry from a date's group (`cli.py` lines 170-195):
transform the main record, capture `main_start`, fold every nap through the
nap loop, then re-sort the merged segments by `dateTime`. -/
def mergeGroup (main : SleepRecord) (naps : List SleepRecord) : Entry :=
  let e := transform_for_chart main
  let e2 := naps.foldl (fun acc nap => mergeNap e.startTime acc (transform_for_chart nap)) e
  { e2 with segments := sortSegs e2.segments }

/-- The chart records written by `build` (`cli.py` lines 155-198): group by
date, skip dates without a main record, merge naps, sort by `date`. -/
def chartData (rs : List SleepRecord) : List Entry :=
  sortBy (fun a b => strLe a.date b.date)
    ((groupByDate rs).filterMap (fun p => p.2.main.map (fun m => mergeGroup m p.2.naps)))

theorem mergeNap_date (ms : String) (e nd : Entry) : (mergeNap ms e nd).date = e.date := by
  simp only [mergeNap]
  split
  · split <;> rfl
  · rfl

theorem foldl_mergeNap_date (ms : String) :
    ∀ (l : List SleepRecord) (e : Entry),
    (l.foldl (fun acc nap => mergeNap ms acc (transform_for_chart nap)) e).date = e.date
  | [], _ => rfl
  | n :: l, e => by
      rw [List.foldl_cons, foldl_mergeNap_date ms l _, mergeNap_date]

theorem mergeGroup_date (m : SleepRecord) (naps : List SleepRecord) :
    (mergeGroup m naps).date = m.dateOfSleep :=
  foldl_mergeNap_date (transform_for_chart m).startTime naps (transform_for_chart m)

theorem mem_mainsFor {rs : List SleepRecord} {d : String} {m : SleepRecord}
    (h : m ∈ mainsFor rs d) :
    m ∈ rs ∧ m.dateOfSleep = d ∧ m.isMainSleep = true := by
  rw [mainsFor, List.mem_filter] at h
  obtain ⟨h1, h2⟩ := h
  rw [recordsFor, List.mem_filter] at h1
  exact ⟨h1.1, by simpa using h1.2, h2⟩

theorem mem_napsFor {rs : List SleepRecord} {d : String} {m : SleepRecord}
    (h : m ∈ napsFor rs d) :
    m ∈ rs ∧ m.dateOfSleep = d ∧ m.isMainSleep = false := by
  rw [napsFor, List.mem_filter] at h
  obtain ⟨h1, h2⟩ := h
  rw [recordsFor, List.mem_filter] at h1
  refine ⟨h1.1, by simpa using h1.2, by simpa using h2⟩

theorem getLast?_mem {α : Type _} {l : List α} {a : α} (h : l.getLast? = some a) :
    a ∈ l := by
  obtain ⟨ys, rfl⟩ := List.getLast?_eq_some_iff.mp h
  simp

theorem nodup_filterMap_keys {l : List (String × DateGroup)}
    {f : String × DateGroup → Option String}
    (hf : ∀ p ∈ l, ∀ d, f p = some d → d = p.1)
    (h : (l.map Prod.fst).Nodup) : (l.filterMap f).Nodup := by
  induction l with
  | nil => simp
  | cons p l ih =>
      rw [List.map_cons, List.nodup_cons] at h
      rw [List.filterMap_cons]
      rcases hfp : f p with _ | d
      · exact ih (fun q hq => hf q (List.mem_cons_of_mem _ hq)) h.2
      · rw [List.nodup_cons]
        refine ⟨?_, ih (fun q hq => hf q (List.mem_cons_of_mem _ hq)) h.2⟩
        intro hmem
        obtain ⟨q, hq, hfq⟩ := List.mem_filterMap.mp hmem
        have hd1 : d = p.1 := hf p (List.mem_cons_self _ _) d hfp
        have hd2 : d = q.1 := hf q (List.mem_cons_of_mem _ hq) d hfq
        have hpq : p.1 = q.1 := by rw [← hd1, hd2]
        exact h.1 (hpq ▸ List.mem_map_of_mem Prod.fst hq)

theorem lookup_eq_some_of_mem :
    ∀ {m : List (String × DateGroup)}, (m.map Prod.fst).Nodup →
    ∀ {k : String} {v : DateGroup}, (k, v) ∈ m → List.lookup k m = some v := by
  intro m
  induction m with
  | nil =>
      intro _ k v h
      simp at h
  | cons p rest ih =>
      intro hnd k v hm
      rw [List.map_cons, List.nodup_cons] at hnd
      rcases List.mem_cons.mp hm with heq | hmem
      · obtain ⟨k', v'⟩ := p
        rw [Prod.mk.injEq] at heq
        obtain ⟨rfl, rfl⟩ := heq
        simp [List.lookup]
      · obtain ⟨k', v'⟩ := p
        have hk : ¬ k = k' := by
          intro hke
          apply hnd.1
          have hmm := List.mem_map_of_mem Prod.fst hmem
          rw [hke] at hmm
          exact hmm
        rw [List.lookup]
        rw [show (k == k') = false from beq_eq_false_iff_ne.mpr hk]
        exact ih hnd.2 hmem

theorem mem_of_lookup_eq_some :
    ∀ {m : List (String × DateGroup)} {k : String} {v : DateGroup},
    List.lookup k m = some v → (k, v) ∈ m := by
  intro m
  induction m with
  | nil =>
      intro k v h
      simp [List.lookup] at h
  | cons p rest ih =>
      intro k v h
      obtain ⟨k', v'⟩ := p
      by_cases hk : k = k'
      · subst hk
        rw [List.lookup, beq_self_eq_true] at h
        rw [Option.some_inj] at h
        subst h
        exact List.mem_cons_self _ _
      · rw [List.lookup, show (k == k') = false from beq_eq_false_iff_ne.mpr hk] at h
        exact List.mem_cons_of_mem _ (ih h)

theorem mem_chartData {rs : List SleepRecord} {e : Entry} :
    e ∈ chartData rs ↔
      ∃ d g m, List.lookup d (groupByDate rs) = some g ∧ g.main = some m ∧
        e = mergeGroup m g.naps := by
  rw [chartData, mem_sortBy, List.mem_filterMap]
  constructor
  · rintro ⟨p, hp, hfp⟩
    rw [Option.map_eq_some'] at hfp
    obtain ⟨m, hm, hme⟩ := hfp
    exact ⟨p.1, p.2, m,
      lookup_eq_some_of_mem (nodup_keys_groupByDate rs) hp, hm, hme.symm⟩
  · rintro ⟨d, g, m, hlk, hm, rfl⟩
    refine ⟨(d, g), mem_of_lookup_eq_some hlk, ?_⟩
    rw [hm]
    rfl

/-- C6: the chart output has at most one record per date, and a date appears
exactly when some input record for it has `isMainSleep`; a date whose records
are all naps/fixups never appears. -/
theorem spec_C6 (rs : List SleepRecord) :
    ((chartData rs).map (fun e => e.date)).Nodup ∧
    (∀ d, d ∈ (chartData rs).map (fun e => e.date) ↔
      ∃ r ∈ rs, r.dateOfSleep = d ∧ r.isMainSleep = true) := by
  have hperm : ((chartData rs).map (fun e => e.date)).Perm
      (((groupByDate rs).filterMap
        (fun p => p.2.main.map (fun m => mergeGroup m p.2.naps))).map
          (fun e => e.date)) :=
    (sortBy_perm _ _).map _
  have hrepr : (((groupByDate rs).filterMap
        (fun p => p.2.main.map (fun m => mergeGroup m p.2.naps))).map
          (fun e => e.date)) =
      (groupByDate rs).filterMap
        (fun p => p.2.main.map (fun m => (mergeGroup m p.2.naps).date)) := by
    rw [List.map_filterMap]
    congr 1
    funext p
    rw [Option.map_map]
    rfl
  have hf : ∀ p ∈ groupByDate rs, ∀ d,
      (p.2.main.map (fun m => (mergeGroup m p.2.naps).date)) = some d → d = p.1 := by
    intro p hp d hfd
    rw [Option.map_eq_some'] at hfd
    obtain ⟨m, hm, hmd⟩ := hfd
    have hlk : List.lookup p.1 (groupByDate rs) = some p.2 :=
      lookup_eq_some_of_mem (nodup_keys_groupByDate rs) hp
    have hchar := lookup_groupByDate_char hlk
    have hm' : (mainsFor rs p.1).getLast? = some m := by
      rw [← hchar.1]
      exact hm
    have hmem := mem_mainsFor (getLast?_mem hm')
    rw [← hmd, mergeGroup_date]
    exact hmem.2.1
  constructor
  · refine (hperm.nodup_iff).mpr ?_
    rw [hrepr]
    exact nodup_filterMap_keys hf (nodup_keys_groupByDate rs)
  · intro d
    rw [hperm.mem_iff, hrepr, List.mem_filterMap]
    constructor
    · rintro ⟨p, hp, hfd⟩
      rw [Option.map_eq_some'] at hfd
      obtain ⟨m, hm, hmd⟩ := hfd
      have hlk : List.lookup p.1 (groupByDate rs) = some p.2 :=
        lookup_eq_some_of_mem (nodup_keys_groupByDate rs) hp
      have hchar := lookup_groupByDate_char hlk
      have hm' : (mainsFor rs p.1).getLast? = some m := by
        rw [← hchar.1]
        exact hm
      have hmem := mem_mainsFor (getLast?_mem hm')
      refine ⟨m, hmem.1, ?_, hmem.2.2⟩
      have hd := mergeGroup_date m p.2.naps
      rw [hd] at hmd
      exact hmd
    · rintro ⟨r, hr, hrd, hrm⟩
      have hrrec : r ∈ recordsFor rs d := by
        rw [recordsFor, List.mem_filter]
        exact ⟨hr, by simp [hrd]⟩
      have hne : (recordsFor rs d).isEmpty = false := by
        rcases hE : recordsFor rs d with _ | _
        · rw [hE] at hrrec
          simp at hrrec
        · simp
      have hrmains : r ∈ mainsFor rs d := by
        rw [mainsFor, List.mem_filter]
        exact ⟨hrrec, hrm⟩
      have hlast : (mainsFor rs d).getLast?.isSome = true := by
        rw [List.getLast?_isSome]
        exact List.ne_nil_of_mem hrmains
      obtain ⟨m', hm'⟩ := Option.isSome_iff_exists.mp hlast
      have hlk : List.lookup d (groupByDate rs) =
          some { main := (mainsFor rs d).getLast?, naps := napsFor rs d } := by
        rw [lookup_groupByDate]
        simp [hne]
      refine ⟨(d, { main := (mainsFor rs d).getLast?, naps := napsFor rs d }),
        mem_of_lookup_eq_some hlk, ?_⟩
      have hm'mem := mem_mainsFor (getLast?_mem hm')
      simp only [hm', Option.map_some']
      rw [mergeGroup_date]
      exact congrArg some hm'mem.2.1

/-- A rational that is an integer (Python int vs float distinction for the
chart's minute fields). -/
def IsInt (q : ℚ) : Prop := ∃ n : ℤ, q = (n : ℚ)

theorem isInt_natCast (n : ℕ) : IsInt (n : ℚ) :=
  ⟨n, by push_cast; rfl⟩

theorem isInt_zero : IsInt 0 := ⟨0, by norm_num⟩

theorem IsInt.add {a b : ℚ} : IsInt a → IsInt b → IsInt (a + b)
  | ⟨m, hm⟩, ⟨n, hn⟩ => ⟨m + n, by rw [hm, hn]; push_cast; ring⟩

theorem IsInt.sub {a b : ℚ} : IsInt a → IsInt b → IsInt (a - b)
  | ⟨m, hm⟩, ⟨n, hn⟩ => ⟨m - n, by rw [hm, hn]; push_cast; ring⟩

theorem IsInt.max_zero {a : ℚ} : IsInt a → IsInt (max 0 a)
  | ⟨n, hn⟩ => ⟨max 0 n, by rw [hn, Int.cast_max]; norm_num⟩

/-- The seconds of a record's chronologically last segment when that segment
is a wake segment (after classic normalization), else `0`: exactly the amount
trimmed (divided by 60) by `transform_for_chart`. -/
def termSeconds (r : SleepRecord) : Nat :=
  match (transformSegs r).getLast? with
  | some s => if s.level = "wake" then s.seconds else 0
  | none => 0

theorem terminalAwake_isInt (r : SleepRecord) (h : 60 ∣ termSeconds r) :
    IsInt (terminalAwake (transformSegs r)) := by
  rw [termSeconds] at h
  rw [terminalAwake]
  rcases hl : (transformSegs r).getLast? with _ | s
  · exact isInt_zero
  · rw [hl] at h
    have h' : 60 ∣ (if s.level = "wake" then s.seconds else 0) := h
    show IsInt (if s.level = "wake" then (s.seconds : ℚ) / 60 else 0)
    by_cases hw : s.level = "wake"
    · rw [if_pos hw] at h' ⊢
      obtain ⟨k, hk⟩ := h' 
      refine ⟨k, ?_⟩
      rw [hk]
      push_cast
      ring_nf
    · rw [if_neg hw]
      exact isInt_zero

theorem transform_isInt (r : SleepRecord) :
    IsInt (transform_for_chart r).deep ∧ IsInt (transform_for_chart r).light ∧
    IsInt (transform_for_chart r).rem ∧
    (60 ∣ termSeconds r → IsInt (transform_for_chart r).wake) := by
  refine ⟨⟨deepExtract r.levels.summary, rfl⟩, ⟨lightExtract r.levels.summary, rfl⟩,
    ⟨remExtract r.levels.summary, rfl⟩, ?_⟩
  intro h
  exact ((isInt_natCast _).sub (terminalAwake_isInt r h)).max_zero

theorem mergeNap_fields (ms : String) (e nd : Entry) :
    (mergeNap ms e nd).deep = e.deep + nd.deep ∧
    (mergeNap ms e nd).light = e.light + nd.light ∧
    (mergeNap ms e nd).rem = e.rem + nd.rem ∧
    (mergeNap ms e nd).wake = e.wake + nd.wake := by
  simp only [mergeNap]
  split
  · split <;> exact ⟨rfl, rfl, rfl, rfl⟩
  · exact ⟨rfl, rfl, rfl, rfl⟩

theorem foldl_mergeNap_isInt (ms : String) :
    ∀ (l : List SleepRecord) (e : Entry),
    (IsInt e.deep → IsInt
      (l.foldl (fun acc nap => mergeNap ms acc (transform_for_chart nap)) e).deep) ∧
    (IsInt e.light → IsInt
      (l.foldl (fun acc nap => mergeNap ms acc (transform_for_chart nap)) e).light) ∧
    (IsInt e.rem → IsInt
      (l.foldl (fun acc nap => mergeNap ms acc (transform_for_chart nap)) e).rem) ∧
    (IsInt e.wake → (∀ n ∈ l, 60 ∣ termSeconds n) → IsInt
      (l.foldl (fun acc nap => mergeNap ms acc (transform_for_chart nap)) e).wake)
  | [], e => ⟨id, id, id, fun h _ => h⟩
  | n :: l, e => by
      have hstep := mergeNap_fields ms e (transform_for_chart n)
      have ht := transform_isInt n
      have ih := foldl_mergeNap_isInt ms l (mergeNap ms e (transform_for_chart n))
      refine ⟨?_, ?_, ?_, ?_⟩
      · intro h
        rw [List.foldl_cons]
        exact ih.1 (hstep.1 ▸ h.add ht.1)
      · intro h
        rw [List.foldl_cons]
        exact ih.2.1 (hstep.2.1 ▸ h.add ht.2.1)
      · intro h
        rw [List.foldl_cons]
        exact ih.2.2.1 (hstep.2.2.1 ▸ h.add ht.2.2.1)
      · intro h hdvd
        rw [List.foldl_cons]
        refine ih.2.2.2 ?_ (fun m hm => hdvd m (List.mem_cons_of_mem _ hm))
        exact hstep.2.2.2 ▸ h.add (ht.2.2.2 (hdvd n (List.mem_cons_self _ _)))

/-- C7 as amended: every chart record's `deep`, `light` and `rem` are
integers; `wake` is an integer provided every input record's trimmed terminal
wake segment has a duration divisible by 60 seconds — otherwise `wake` may be
a non-integral rational (see the counterexample). -/
theorem spec_C7 (rs : List SleepRecord) :
    ∀ e ∈ chartData rs,
      IsInt e.deep ∧ IsInt e.light ∧ IsInt e.rem ∧
      ((∀ r ∈ rs, 60 ∣ termSeconds r) → IsInt e.wake) := by
  intro e he
  obtain ⟨d, g, m, hlk, hm, rfl⟩ := mem_chartData.mp he
  have hchar := lookup_groupByDate_char hlk
  have hmmem : m ∈ mainsFor rs d := by
    apply getLast?_mem
    rw [← hchar.1]
    exact hm
  have hmrs := (mem_mainsFor hmmem).1
  have hnaps : ∀ n ∈ g.naps, n ∈ rs := by
    intro n hn
    rw [hchar.2] at hn
    exact (mem_napsFor hn).1
  have htr := transform_isInt m
  have hfold := foldl_mergeNap_isInt (transform_for_chart m).startTime g.naps
    (transform_for_chart m)
  refine ⟨hfold.1 htr.1, hfold.2.1 htr.2.1, hfold.2.2.1 htr.2.2.1, ?_⟩
  intro hdvd
  exact hfold.2.2.2 (htr.2.2.2 (hdvd m hmrs)) (fun n hn => hdvd n (hnaps n hn))

/-- A main-sleep record whose trailing wake segment lasts 90 seconds, so the
trimmed `wake` total is `20 - 3/2 = 37/2` minutes. -/
def fractionalWakeRec : SleepRecord :=
  { dateOfSleep := "2025-05-01", isMainSleep := true,
    startTime := "2025-04-30T23:00:00.000", endTime := "2025-05-01T07:00:00.000",
    efficiency := 90,
    levels := { summary := { deep := some 10, light := some 200, rem := some 50,
                             wake := some 20, asleep := none, awake := none,
                             restless := none },
                data := [{ dateTime := "2025-04-30T23:00:00.000", level := "light",
                           seconds := 600 },
                         { dateTime := "2025-05-01T06:58:30.000", level := "wake",
                           seconds := 90 }],
                shortData := [] } }

/-- Counterexample to C7 as stated: the chart record built from
`fractionalWakeRec` has `wake = 37/2`, not an integer number of minutes. -/
theorem spec_C7_counterexample :
    ¬ ∀ e ∈ chartData [fractionalWakeRec], IsInt e.wake := by
  intro h
  have hmem : mergeGroup fractionalWakeRec [] ∈ chartData [fractionalWakeRec] :=
    List.mem_singleton.mpr rfl
  obtain ⟨n, hn⟩ := h _ hmem
  have hsegs : transformSegs fractionalWakeRec =
      [{ dateTime := "2025-04-30T23:00:00.000", level := "light", seconds := 600,
         isNap := false },
       { dateTime := "2025-05-01T06:58:30.000", level := "wake", seconds := 90,
         isNap := false }] := by decide
  have hw : (mergeGroup fractionalWakeRec []).wake = 37 / 2 := by
    show max 0 (((wakeExtract fractionalWakeRec.levels.summary : ℕ) : ℚ) -
      terminalAwake (transformSegs fractionalWakeRec)) = 37 / 2
    rw [hsegs]
    rw [show wakeExtract fractionalWakeRec.levels.summary = 20 from rfl]
    rw [terminalAwake]
    norm_num
  rw [hw] at hn
  have h2 : (37 : ℚ) = 2 * (n : ℚ) := by
    rw [← hn]
    norm_num
  have h3 : (37 : ℤ) = 2 * n := by exact_mod_cast h2
  omega

/-- `fractionalWakeRec` with a 120-second terminal wake segment instead, so
the trim is integral. -/
def integralWakeRec : SleepRecord :=
  { fractionalWakeRec with
      levels := { summary := fractionalWakeRec.levels.summary,
                  data := [{ dateTime := "2025-04-30T23:00:00.000", level := "light",
                             seconds := 600 },
                           { dateTime := "2025-05-01T06:58:00.000", level := "wake",
                             seconds := 120 }],
                  shortData := [] } }

/-- Witness for `spec_C7` at the single-record input `integralWakeRec`. -/
theorem spec_C7_witness :
    IsInt (mergeGroup integralWakeRec []).deep ∧
    IsInt (mergeGroup integralWakeRec []).wake := by
  have hmem : mergeGroup integralWakeRec [] ∈ chartData [integralWakeRec] :=
    List.mem_singleton.mpr rfl
  have h := spec_C7 [integralWakeRec] (mergeGroup integralWakeRec []) hmem
  refine ⟨h.1, h.2.2.2 ?_⟩
  intro r hr
  rw [List.mem_singleton] at hr
  subst hr
  decide

/-- A sleep stage drawn by `generate_fixup_segments`; `random.choices` only
ever picks from `["deep", "light", "rem", "wake"]`. -/
inductive Stage where
  | deep
  | light
  | rem
  | wake
deriving DecidableEq, Repr

/-- The JSON `level` string of a stage. -/
def Stage.levelName : Stage → String
  | .deep => "deep"
  | .light => "light"
  | .rem => "rem"
  | .wake => "wake"

/-- Fallback duration pools (`cli.py` line 374). -/
def defaultDurations : Stage → List Nat
  | .deep => [300, 600, 900]
  | .light => [180, 360, 600]
  | .rem => [300, 600]
  | .wake => [60, 180, 300]

/-- `durations_by_stage` (`cli.py` lines 366-377): the reference record's
`levels.data` segment durations per stage, with the defaults when a stage has
none. -/
def refDurations (ref : SleepRecord) (st : Stage) : List Nat :=
  let l := ((ref.levels.data).filter (fun s => s.level == st.levelName)).map
    (fun s => s.seconds)
  if l.isEmpty then defaultDurations st else l

/-- A generated segment. The `dateTime` cursor of the code is modelled as the
offset `start` in seconds (the code advances `current_dt` by each duration). -/
structure GenSeg where
  start : Nat
  stage : Stage
  seconds : Nat
deriving DecidableEq, Repr

def sumSeconds (l : List GenSeg) : Nat := (l.map (fun s => s.seconds)).sum

/-- One iteration's duration (`cli.py` lines 411-414): a draw from the
stage's pool, clipped to the remaining window, then floored at 30 seconds. -/
def pickDuration (dur : Stage → List Nat) (draw : Stage × Nat) (remaining : Nat) : Nat :=
  max 30 (min ((dur draw.1).getD (draw.2 % (dur draw.1).length) 60) remaining)

/-- The `while remaining_seconds > 30` loop (`cli.py` lines 387-423).
Randomness is an oracle `draws`: iteration `i` uses `(draws i).1` as the
stage chosen by `random.choices` and `(draws i).2` (mod pool size) as the
index chosen by `random.choice`. The loop consumes at least 30 seconds per
iteration, so `fuel ≥ remaining` iterations always suffice; `fuel` only
bounds the recursion and never cuts the loop short when so instantiated.
Returns (segments, final cursor, final remaining). -/
def fixupLoop (dur : Stage → List Nat) (draws : Nat → Stage × Nat) :
    Nat → Nat → Nat → Nat → List GenSeg × Nat × Nat
  | 0, _, cur, remaining => ([], cur, remaining)
  | fuel + 1, i, cur, remaining =>
      if 30 < remaining then
        let d := pickDuration dur (draws i) remaining
        let rest := fixupLoop dur draws fuel (i + 1) (cur + d) (remaining - d)
        (⟨cur, (draws i).1, d⟩ :: rest.1, rest.2)
      else ([], cur, remaining)

/-- Segment generation of `generate_fixup_segments` along its normal path:
run the loop over the `[start, end)` window, then append a closing wake
segment of `min(180, max(30, remaining))` seconds when the last generated
segment is not a wake segment. -/
def fixupSegments (ref : SleepRecord) (startSec endSec : Nat)
    (draws : Nat → Stage × Nat) : List GenSeg :=
  let total := endSec - startSec
  let res := fixupLoop (refDurations ref) draws total 0 startSec total
  match res.1.getLast? with
  | some s =>
      if s.stage ≠ Stage.wake then
        res.1 ++ [⟨res.2.1, Stage.wake, min 180 (max 30 res.2.2)⟩]
      else res.1
  | none => res.1

/-- `sum(stage_minutes.values())` (`cli.py` lines 356-362): the reference
summary's `deep + light + rem + wake` minutes, each read with
`summary.get(stage, {}).get("minutes", 0)` (so a classic summary reads
`0 + 0 + 0 + 0`). -/
def stageMinutesTotal (ref : SleepRecord) : Nat :=
  ref.levels.summary.deep.getD 0 + ref.levels.summary.light.getD 0 +
    ref.levels.summary.rem.getD 0 + ref.levels.summary.wake.getD 0

/-- `generate_fixup_segments` (`cli.py` lines 379-432), segment generation
with its error path. Each loop iteration builds the stage weights
(lines 388-407): `stage_proportions` are the stage minutes divided by
`sum(...) or 1`, then multiplied by the strictly positive bias factors
(1.5 or 0.5 for deep, 0.5 or 1.5 for rem, 0.3 for wake, 1 for light). A
biased weight is therefore zero exactly when the stage's minutes are zero,
and `total_weight` is zero — at every iteration alike — exactly when all
four stage minutes are zero (`stageMinutesTotal ref = 0`, e.g. a
classic-summary reference). In that case `w / total_weight` (line 407)
raises `ZeroDivisionError` on the first iteration, so the call fails exactly
when the loop runs at all (window longer than 30 seconds) with an all-zero
summary; otherwise every weight needed is positive and generation proceeds.
`Except.error ()` models that raised exception. -/
def generate_fixup_segments (ref : SleepRecord) (startSec endSec : Nat)
    (draws : Nat → Stage × Nat) : Except Unit (List GenSeg) :=
  if 30 < endSec - startSec ∧ stageMinutesTotal ref = 0 then Except.error ()
  else Except.ok (fixupSegments ref startSec endSec draws)

/-- The segment list tiles the window starting at `t`: each segment starts
where the previous one ended. -/
def contiguousFrom : Nat → List GenSeg → Bool
  | _, [] => true
  | t, s :: rest => s.start == t && contiguousFrom (t + s.seconds) rest

theorem pickDuration_ge (dur : Stage → List Nat) (draw : Stage × Nat) (r : Nat) :
    30 ≤ pickDuration dur draw r :=
  le_max_left _ _

theorem pickDuration_le (dur : Stage → List Nat) (draw : Stage × Nat) {r : Nat}
    (h : 30 < r) : pickDuration dur draw r ≤ r :=
  max_le (by omega) (min_le_right _ _)

theorem fixupLoop_spec (dur : Stage → List Nat) (draws : Nat → Stage × Nat) :
    ∀ (fuel i cur remaining : Nat),
    sumSeconds (fixupLoop dur draws fuel i cur remaining).1 ≤ remaining ∧
    (fixupLoop dur draws fuel i cur remaining).2.1 =
      cur + sumSeconds (fixupLoop dur draws fuel i cur remaining).1 ∧
    (fixupLoop dur draws fuel i cur remaining).2.2 =
      remaining - sumSeconds (fixupLoop dur draws fuel i cur remaining).1 ∧
    contiguousFrom cur (fixupLoop dur draws fuel i cur remaining).1 = true ∧
    (remaining ≤ fuel → (fixupLoop dur draws fuel i cur remaining).2.2 ≤ 30)
  | 0, i, cur, remaining => by
      refine ⟨?_, ?_, ?_, ?_, ?_⟩ <;>
        simp [fixupLoop, sumSeconds, contiguousFrom]
      omega
  | fuel + 1, i, cur, remaining => by
      by_cases h : 30 < remaining
      · have heq : fixupLoop dur draws (fuel + 1) i cur remaining =
            ((⟨cur, (draws i).1, pickDuration dur (draws i) remaining⟩ : GenSeg) ::
              (fixupLoop dur draws fuel (i + 1)
                (cur + pickDuration dur (draws i) remaining)
                (remaining - pickDuration dur (draws i) remaining)).1,
             (fixupLoop dur draws fuel (i + 1)
                (cur + pickDuration dur (draws i) remaining)
                (remaining - pickDuration dur (draws i) remaining)).2) := by
          simp [fixupLoop, h]
        have ih := fixupLoop_spec dur draws fuel (i + 1)
          (cur + pickDuration dur (draws i) remaining)
          (remaining - pickDuration dur (draws i) remaining)
        have hd30 := pickDuration_ge dur (draws i) remaining
        have hdle := pickDuration_le dur (draws i) h
        obtain ⟨ih1, ih2, ih3, ih4, ih5⟩ := ih
        simp only [sumSeconds] at ih1 ih2 ih3
        refine ⟨?_, ?_, ?_, ?_, ?_⟩
        · rw [heq]
          dsimp only
          simp only [sumSeconds, List.map_cons, List.sum_cons]
          omega
        · rw [heq]
          dsimp only
          simp only [sumSeconds, List.map_cons, List.sum_cons]
          omega
        · rw [heq]
          dsimp only
          simp only [sumSeconds, List.map_cons, List.sum_cons]
          omega
        · rw [heq]
          dsimp only
          simp [contiguousFrom, ih4]
        · intro hfuel
          rw [heq]
          dsimp only
          exact ih5 (by omega)
      · refine ⟨?_, ?_, ?_, ?_, ?_⟩ <;>
          simp [fixupLoop, h, sumSeconds, contiguousFrom]
        omega

theorem contiguousFrom_append_single :
    ∀ (l : List GenSeg) (t : Nat) (w : GenSeg),
    contiguousFrom t l = true → w.start = t + sumSeconds l →
    contiguousFrom t (l ++ [w]) = true
  | [], t, w, _, hw => by
      simp [sumSeconds] at hw
      simp [contiguousFrom, hw]
  | s :: l, t, w, hc, hw => by
      simp only [contiguousFrom, Bool.and_eq_true, beq_iff_eq] at hc
      obtain ⟨hc1, hc2⟩ := hc
      simp only [List.cons_append, contiguousFrom, Bool.and_eq_true, beq_iff_eq]
      refine ⟨hc1, contiguousFrom_append_single l (t + s.seconds) w hc2 ?_⟩
      rw [hw]
      simp only [sumSeconds, List.map_cons, List.sum_cons]
      omega

/-- Normal-path properties of the generated segments: contiguity, the ±30s
coverage bounds, the trailing wake segment, and the loop decomposition. -/
theorem fixupSegments_spec (ref : SleepRecord) (startSec endSec : Nat)
    (draws : Nat → Stage × Nat) :
    contiguousFrom startSec (fixupSegments ref startSec endSec draws) = true ∧
    (endSec - startSec) - 30 ≤
      sumSeconds (fixupSegments ref startSec endSec draws) ∧
    sumSeconds (fixupSegments ref startSec endSec draws) ≤
      (endSec - startSec) + 30 ∧
    (∀ s, (fixupSegments ref startSec endSec draws).getLast? = some s →
      s.stage = Stage.wake) ∧
    (fixupSegments ref startSec endSec draws =
        (fixupLoop (refDurations ref) draws (endSec - startSec) 0 startSec
          (endSec - startSec)).1 ∨
      ∃ w : GenSeg, w.stage = Stage.wake ∧ w.seconds ≤ 180 ∧
        fixupSegments ref startSec endSec draws =
          (fixupLoop (refDurations ref) draws (endSec - startSec) 0 startSec
            (endSec - startSec)).1 ++ [w]) := by
  obtain ⟨h1, h2, h3, h4, h5⟩ := fixupLoop_spec (refDurations ref) draws
    (endSec - startSec) 0 startSec (endSec - startSec)
  have h5' := h5 (le_refl _)
  rcases hl : (fixupLoop (refDurations ref) draws (endSec - startSec) 0 startSec
      (endSec - startSec)).1.getLast? with _ | s
  · have hnil : (fixupLoop (refDurations ref) draws (endSec - startSec) 0 startSec
        (endSec - startSec)).1 = [] := by
      rwa [List.getLast?_eq_none_iff] at hl
    have hgen : fixupSegments ref startSec endSec draws =
        (fixupLoop (refDurations ref) draws (endSec - startSec) 0 startSec
          (endSec - startSec)).1 := by
      simp only [fixupSegments, hl]
    have hsum0 : sumSeconds (fixupLoop (refDurations ref) draws (endSec - startSec) 0
        startSec (endSec - startSec)).1 = 0 := by
      rw [hnil]
      simp [sumSeconds]
    rw [hsum0] at h3
    refine ⟨?_, ?_, ?_, ?_, Or.inl hgen⟩
    · rw [hgen, hnil]
      simp [contiguousFrom]
    · rw [hgen, hsum0]
      omega
    · rw [hgen, hsum0]
      omega
    · intro s hs
      rw [hgen, hnil] at hs
      simp at hs
  · by_cases hw : s.stage = Stage.wake
    · have hgen : fixupSegments ref startSec endSec draws =
          (fixupLoop (refDurations ref) draws (endSec - startSec) 0 startSec
            (endSec - startSec)).1 := by
        simp only [fixupSegments, hl]
        rw [if_neg (by simp [hw])]
      refine ⟨?_, ?_, ?_, ?_, Or.inl hgen⟩
      · rw [hgen]
        exact h4
      · rw [hgen]
        omega
      · rw [hgen]
        omega
      · intro s' hs'
        rw [hgen, hl] at hs'
        rw [Option.some_inj] at hs'
        rw [hs'] at hw
        exact hw
    · have hgen : fixupSegments ref startSec endSec draws =
          (fixupLoop (refDurations ref) draws (endSec - startSec) 0 startSec
            (endSec - startSec)).1 ++
            [⟨(fixupLoop (refDurations ref) draws (endSec - startSec) 0 startSec
                 (endSec - startSec)).2.1, Stage.wake,
              min 180 (max 30 (fixupLoop (refDurations ref) draws (endSec - startSec) 0
                 startSec (endSec - startSec)).2.2)⟩] := by
        simp only [fixupSegments, hl]
        rw [if_pos hw]
      have hw30 : min 180 (max 30 (fixupLoop (refDurations ref) draws
          (endSec - startSec) 0 startSec (endSec - startSec)).2.2) = 30 := by
        omega
      have hsumapp : sumSeconds (fixupSegments ref startSec endSec draws) =
          sumSeconds (fixupLoop (refDurations ref) draws (endSec - startSec) 0 startSec
            (endSec - startSec)).1 + 30 := by
        rw [hgen]
        simp [sumSeconds, hw30]
      refine ⟨?_, ?_, ?_, ?_, ?_⟩
      · rw [hgen]
        refine contiguousFrom_append_single _ _ _ h4 ?_
        exact h2
      · rw [hsumapp]
        omega
      · rw [hsumapp]
        omega
      · intro s' hs'
        rw [hgen, List.getLast?_concat] at hs'
        rw [Option.some_inj] at hs'
        rw [← hs']
      · exact Or.inr ⟨_, rfl, by exact hw30 ▸ min_le_left 180 _, hgen⟩

/-- A reference night tracking only `light` sleep (100 minutes), with a single
60-second `light` segment; only the `light` stage has positive sampling weight
in `generate_fixup_segments`, so always drawing `light` is realizable. -/
def refLightOnly : SleepRecord :=
  { dateOfSleep := "2025-06-01", isMainSleep := true,
    startTime := "2025-05-31T23:00:00.000", endTime := "2025-06-01T07:00:00.000",
    efficiency := 90,
    levels := { summary := { deep := some 0, light := some 100, rem := some 0,
                             wake := some 0, asleep := none, awake := none,
                             restless := none },
                data := [{ dateTime := "2025-05-31T23:00:00.000", level := "light",
                           seconds := 60 }],
                shortData := [] } }

/-- The draw oracle that always picks the `light` stage and pool index 0. -/
def drawsLight : Nat → Stage × Nat := fun _ => (Stage.light, 0)

/-- C5 as amended: generation fails (a `ZeroDivisionError` in the weight
normalization) exactly when the window exceeds 30 seconds and the reference
summary's four stage-minute totals are all zero; on the normal path the
generated segments are contiguous from `start`, any nonempty output ends in a
wake segment of at most 180 seconds appended when the loop's last segment is
not wake, and the seconds total is only within 30 seconds of the window
length (the loop stops with up to 30 seconds unconsumed and the closing wake
segment extends beyond the window) — not exactly the window length. -/
theorem spec_C5 (ref : SleepRecord) (startSec endSec : Nat)
    (draws : Nat → Stage × Nat) :
    (generate_fixup_segments ref startSec endSec draws = Except.error () ↔
      30 < endSec - startSec ∧ stageMinutesTotal ref = 0) ∧
    (∀ segs, generate_fixup_segments ref startSec endSec draws = Except.ok segs →
      contiguousFrom startSec segs = true ∧
      (endSec - startSec) - 30 ≤ sumSeconds segs ∧
      sumSeconds segs ≤ (endSec - startSec) + 30 ∧
      (∀ s, segs.getLast? = some s → s.stage = Stage.wake) ∧
      (segs = (fixupLoop (refDurations ref) draws (endSec - startSec) 0 startSec
          (endSec - startSec)).1 ∨
        ∃ w : GenSeg, w.stage = Stage.wake ∧ w.seconds ≤ 180 ∧
          segs = (fixupLoop (refDurations ref) draws (endSec - startSec) 0 startSec
            (endSec - startSec)).1 ++ [w])) := by
  by_cases hc : 30 < endSec - startSec ∧ stageMinutesTotal ref = 0
  · constructor
    · simp [generate_fixup_segments, hc]
    · intro segs hs
      rw [generate_fixup_segments, if_pos hc] at hs
      exact absurd hs (Except.noConfusion)
  · constructor
    · simp [generate_fixup_segments, hc]
    · intro segs hs
      rw [generate_fixup_segments, if_neg hc] at hs
      rw [Except.ok.injEq] at hs
      subst hs
      exact fixupSegments_spec ref startSec endSec draws

/-- Counterexample to C5 as stated: over a 100-second window the generation
succeeds but the segments sum to 130 seconds (60 + 40 from the loop, which
stops with 0 remaining, plus a 30-second closing wake segment), not exactly
the 100-second window. -/
theorem spec_C5_counterexample :
    ∃ segs, generate_fixup_segments refLightOnly 0 100 drawsLight = Except.ok segs ∧
      sumSeconds segs ≠ 100 - 0 := by
  refine ⟨fixupSegments refLightOnly 0 100 drawsLight, ?_, by decide⟩
  rw [generate_fixup_segments, if_neg (by decide)]

/-- A classic-summary reference: all four stage keys absent, so every stage
proportion is zero and the weight normalization divides by zero. -/
def classicRef : SleepRecord :=
  { dateOfSleep := "2025-06-02", isMainSleep := true,
    startTime := "2025-06-01T23:00:00.000", endTime := "2025-06-02T07:00:00.000",
    efficiency := 50,
    levels := { summary := { deep := none, light := none, rem := none,
                             wake := none, asleep := some 100, awake := some 5,
                             restless := some 5 },
                data := [], shortData := [] } }

/-- Witness for `spec_C5`: a classic-summary reference over a 100-second
window raises, while the counterexample's input succeeds and ends in a wake
segment. -/
theorem spec_C5_witness :
    (generate_fixup_segments classicRef 0 100 drawsLight = Except.error ()) ∧
    ({ start := 100, stage := Stage.wake, seconds := 30 } : GenSeg).stage =
      Stage.wake := by
  constructor
  · exact (spec_C5 classicRef 0 100 drawsLight).1.mpr (by decide)
  · exact ((spec_C5 refLightOnly 0 100 drawsLight).2
      (fixupSegments refLightOnly 0 100 drawsLight)
      (by rw [generate_fixup_segments, if_neg (by decide)])).2.2.2.1
      { start := 100, stage := Stage.wake, seconds := 30 } (by decide)
